import Mathlib

/-!
Verification development for the Bitbucket tool adapters
(code_search.ts, search_repositories.ts, and the unnamed list-projects,
read and glob tool files).  Each adapter is embedded as a pure Lean
function over explicit response values; the observable event sequence is
embedded as a list of events.  External collaborators (the HTTP client,
the configuration service, the picomatch library, the URI library and the
JavaScript RegExp engine) are out of scope per the specification and are
passed in as explicit function parameters or modelled by their response
shapes.
-/

namespace BitbucketTools

/-! ## Shared event protocol

Every adapter emits zero or more in-progress events followed by exactly
one terminal done or error event.  We embed the emitted sequence as a
list. -/

inductive ToolEvent (ρ : Type) where
  | progress (messages : List String)
  | done (result : ρ)
  | error (message : String)
  deriving DecidableEq, Repr

/-- Shape of a response from the external fetch collaborator
(`{ok, status, statusText, data, text}` per the specification).  `data`
and `text` are optional payloads. -/
structure APIResponse (α : Type) where
  ok : Bool
  status : Nat
  statusText : String
  text : Option String
  data : Option α
  deriving DecidableEq, Repr

/-- Truthiness of an optional JavaScript string value: `undefined` and
the empty string are both falsy. -/
def strTruthy : Option String → Bool
  | none => false
  | some s => s != ""

/-- Embedding of `text.substring(0, 100)` (character based). -/
def substring100 (t : String) : String :=
  String.mk (t.toList.take 100)

/-- The fragment `${response.text ? ` - ${response.text.substring(0, 100)}` : ''}`
appended to the failure messages of the two search adapters. -/
def textFragment (text : Option String) : String :=
  match text with
  | some t => if t != "" then " - " ++ substring100 t else ""
  | none => ""

/-! ## code_search.ts: glob-to-regex translation (lines 175-187)

The source builds
`new RegExp('^' + fileGlob.replace(/\./g, '\\.').replace(/\*\*/g, '.*').replace(/\*/g, '[^/]*') + '$')`.
Each `.replace` is one left-to-right, non-overlapping global pass over
the string; a pass never rescans its own replacement text, but a LATER
pass does scan earlier replacement text. -/

/-- Embedding of `fileGlob.replace(/\./g, '\\.')`: every dot becomes a
backslash followed by a dot. -/
def escapeDots : List Char → List Char
  | [] => []
  | c :: cs => if c = '.' then '\\' :: '.' :: escapeDots cs else c :: escapeDots cs

/-- Embedding of `.replace(/\*\*/g, '.*')`: each non-overlapping `**`
(scanning left to right) becomes `.*`. -/
def replaceDoubleStar : List Char → List Char
  | '*' :: '*' :: cs => '.' :: '*' :: replaceDoubleStar cs
  | c :: cs => c :: replaceDoubleStar cs
  | [] => []

/-- Embedding of `.replace(/\*/g, '[^/]*')`: each remaining `*`
(including any `*` introduced by the previous pass) becomes `[^/]*`. -/
def replaceSingleStar : List Char → List Char
  | '*' :: cs => '[' :: '^' :: '/' :: ']' :: '*' :: replaceSingleStar cs
  | c :: cs => c :: replaceSingleStar cs
  | [] => []

/-- The characters standing between the anchors of the regex source
`'^' + ... + '$'` built by bitbucketCodeSearchTool. -/
def globRegexBody (fileGlob : String) : List Char :=
  replaceSingleStar (replaceDoubleStar (escapeDots fileGlob.toList))

/-- Abstract syntax of the regex fragments the translation can produce
for glob patterns over the path alphabet (letters, digits, `/`, `.`,
`*`): literal characters, backslash-escaped literals, the `.`
metacharacter and the `[^/]*` starred class. -/
inductive RegexToken where
  | lit (c : Char)
  | anyChar
  | nonSlashStar
  deriving DecidableEq, Repr

/-- Tokenizer for the produced regex source.  Returns none on syntax the
translation never produces for the glob alphabet above (a trailing
backslash, or a bracket not opening the exact class `[^/]*`). -/
def regexTokens : List Char → Option (List RegexToken)
  | [] => some []
  | '\\' :: c :: cs => Option.map (fun ts => RegexToken.lit c :: ts) (regexTokens cs)
  | ['\\'] => none
  | '[' :: '^' :: '/' :: ']' :: '*' :: cs =>
      Option.map (fun ts => RegexToken.nonSlashStar :: ts) (regexTokens cs)
  | '[' :: _ => none
  | '.' :: cs => Option.map (fun ts => RegexToken.anyChar :: ts) (regexTokens cs)
  | c :: cs => Option.map (fun ts => RegexToken.lit c :: ts) (regexTokens cs)

/-- Backtracking matcher for the token language, against a whole input
(the regex is anchored `^...$`).  `anyChar` matches any character other
than a line terminator; `nonSlashStar` matches zero or more characters
other than `/`.  The fuel argument only bounds the recursion; every call
strictly decreases tokens-plus-input, so `tokens.length + input.length + 1`
always suffices. -/
def tokensMatch : Nat → List RegexToken → List Char → Bool
  | 0, _, _ => false
  | _ + 1, [], s => s.isEmpty
  | fuel + 1, RegexToken.lit c :: ts, s =>
      match s with
      | [] => false
      | d :: ds => c == d && tokensMatch fuel ts ds
  | fuel + 1, RegexToken.anyChar :: ts, s =>
      match s with
      | [] => false
      | d :: ds => d != '\n' && tokensMatch fuel ts ds
  | fuel + 1, RegexToken.nonSlashStar :: ts, s =>
      tokensMatch fuel ts s ||
        match s with
        | [] => false
        | d :: ds => d != '/' && tokensMatch fuel (RegexToken.nonSlashStar :: ts) ds

/-- Whole-input test of the produced regex body against a file path:
embedding of `globRegex.test(file.file)`. -/
def globRegexTest (fileGlob file : String) : Bool :=
  match regexTokens (globRegexBody fileGlob) with
  | none => false
  | some ts => tokensMatch (ts.length + file.length + 1) ts file.toList

/-! ## code_search.ts: the code search adapter -/

/-- Fields of a code search hit that the adapter consults
(`file.repository.project.key`, `file.repository.slug`, `file.file`).
Payload fields the adapter merely passes through unchanged
(ids, names, hitContexts, pathMatches, hitCount) are not modelled since
they affect neither the filtering nor the counting. -/
structure CodeHit where
  projectKey : String
  repositorySlug : String
  file : String
  deriving DecidableEq, Repr

/-- The `code` section of the search response (`response.data.code`). -/
structure CodeSection where
  count : Nat
  values : List CodeHit
  deriving DecidableEq, Repr

/-- The `data` payload of the code search response; the `code` key may be
absent. -/
structure CodeSearchData where
  code : Option CodeSection
  deriving DecidableEq, Repr

/-- Result shape of the code_search tool. -/
structure CodeSearchResult where
  files : List CodeHit
  totalCount : Nat
  deriving DecidableEq, Repr

/-- Client-side filter by project key (code_search.ts lines 163-167):
applied only when the `project` argument is truthy. -/
def filterByProject : Option String → List CodeHit → List CodeHit
  | some p, files => if p != "" then files.filter (fun f => f.projectKey == p) else files
  | none, files => files

/-- Client-side filter by repository slug (lines 169-173). -/
def filterByRepository : Option String → List CodeHit → List CodeHit
  | some r, files => if r != "" then files.filter (fun f => f.repositorySlug == r) else files
  | none, files => files

/-- Client-side filter by file glob (lines 175-187), using the
glob-to-regex translation embedded above. -/
def filterByFileGlob : Option String → List CodeHit → List CodeHit
  | some g, files => if g != "" then files.filter (fun f => globRegexTest g f.file) else files
  | none, files => files

/-- Embedding of bitbucketCodeSearchTool (code_search.ts lines 69-222):
the list of events emitted for a given response of the external fetch
collaborator.  Thrown errors (non-ok response, missing data) are caught
at lines 202-215 and surfaced as a single error event. -/
def bitbucketCodeSearchTool (query : String) (project repository fileGlob : Option String)
    (resp : APIResponse CodeSearchData) : List (ToolEvent CodeSearchResult) :=
  let progressEv : ToolEvent CodeSearchResult :=
    ToolEvent.progress [s!"Searching for \"{query}\" in code..."]
  if resp.ok = false then
    let st := resp.status
    let stx := resp.statusText
    let frag := textFragment resp.text
    [progressEv, ToolEvent.error
      s!"Error searching Bitbucket code: Bitbucket code search failed: {st} {stx}{frag}"]
  else
    match resp.data with
    | none =>
        [progressEv, ToolEvent.error
          "Error searching Bitbucket code: No data returned from Bitbucket code search"]
    | some data =>
        match data.code with
        | none => [progressEv, ToolEvent.done { files := [], totalCount := 0 }]
        | some code =>
            let filteredFiles :=
              filterByFileGlob fileGlob (filterByRepository repository
                (filterByProject project code.values))
            [progressEv, ToolEvent.done
              { files := filteredFiles, totalCount := filteredFiles.length }]

/-! ## search_repositories.ts: the repository search adapter -/

/-- Repository record returned by the search endpoint.  The adapter
passes these through verbatim, so only an identifying payload is
modelled. -/
structure Repository where
  id : Nat
  name : String
  slug : String
  deriving DecidableEq, Repr

/-- The `repositories` section of the search response. -/
structure RepositoriesSection where
  count : Nat
  values : List Repository
  deriving DecidableEq, Repr

/-- The `data` payload of the repository search response; the
`repositories` key may be absent. -/
structure SearchRepositoriesData where
  repositories : Option RepositoriesSection
  deriving DecidableEq, Repr

/-- Result shape of the search_repositories tool. -/
structure SearchRepositoriesResult where
  repositories : List Repository
  totalCount : Nat
  deriving DecidableEq, Repr

/-- Embedding of bitbucketSearchRepositoriesTool
(search_repositories.ts lines 64-179). -/
def bitbucketSearchRepositoriesTool (query : String)
    (resp : APIResponse SearchRepositoriesData) :
    List (ToolEvent SearchRepositoriesResult) :=
  let progressEv : ToolEvent SearchRepositoriesResult :=
    ToolEvent.progress [s!"Searching for repositories matching \"{query}\"..."]
  if resp.ok = false then
    let st := resp.status
    let stx := resp.statusText
    let frag := textFragment resp.text
    [progressEv, ToolEvent.error
      s!"Error searching Bitbucket repositories: Bitbucket repository search failed: {st} {stx}{frag}"]
  else
    match resp.data with
    | none =>
        [progressEv, ToolEvent.error
          "Error searching Bitbucket repositories: No data returned from Bitbucket repository search"]
    | some data =>
        match data.repositories with
        | none => [progressEv, ToolEvent.done { repositories := [], totalCount := 0 }]
        | some sec =>
            [progressEv, ToolEvent.done
              { repositories := sec.values, totalCount := sec.count }]

/-! ## The list-projects adapter (src/unnamed/part_000) -/

/-- Embedding of `String.prototype.toLowerCase` on the character
sequence (the adapters only lower-case for ASCII-insensitive
comparison). -/
def jsToLowerCase (s : String) : String :=
  String.mk (s.toList.map Char.toLower)

/-- Containment of `sub` in `s` at any position: embedding of
`String.prototype.includes`. -/
def listIncludes (sub : List Char) : List Char → Bool
  | [] => sub.isEmpty
  | c :: rest => sub.isPrefixOf (c :: rest) || listIncludes sub rest

/-- Embedding of `s.includes(sub)`. -/
def strIncludes (s sub : String) : Bool :=
  listIncludes sub.toList s.toList

/-- Project record of the paginated projects response
(`interface BitbucketProject`); the unused `links` field is not
modelled.  The `public` source field is rendered `isPublicFlag`. -/
structure BitbucketProject where
  key : String
  id : Nat
  name : String
  description : Option String
  isPublicFlag : Bool
  type : String
  deriving DecidableEq, Repr

/-- Page shape of the projects response
(`BitbucketPaginatedResponse<BitbucketProject>`).  The `size` field is
modelled as optional so that the absent-field case of the JSON payload
is expressible; the paging fields the adapter never reads are not
modelled. -/
structure ProjectsPage where
  values : List BitbucketProject
  size : Option Nat
  deriving DecidableEq, Repr

/-- Result record of the list-projects adapter (`ProjectResult`). -/
structure ProjectResult where
  key : String
  name : String
  description : Option String
  isPublic : Bool
  type : String
  deriving DecidableEq, Repr

/-- Result shape of the list-projects adapter. -/
structure ListProjectsResult where
  projects : List ProjectResult
  totalCount : Nat
  deriving DecidableEq, Repr

/-- Truthiness test `(project.description && ...)` on the optional
description field: undefined and the empty string are falsy. -/
def descTruthy : Option String → Bool
  | none => false
  | some s => s != ""

/-- The regex-based project filter (part_000 lines 110-116), given the
compiled case-insensitive test function. -/
def regexFilterProjects (test : String → Bool) (projects : List BitbucketProject) :
    List BitbucketProject :=
  projects.filter (fun project =>
    test project.name || test project.key ||
      (descTruthy project.description && test (project.description.getD "")))

/-- The substring fallback filter used when the pattern is not a valid
regular expression (part_000 lines 118-126): case-insensitive substring
match on name, key and description. -/
def substringFilterProjects (lowerPattern : String) (projects : List BitbucketProject) :
    List BitbucketProject :=
  projects.filter (fun project =>
    strIncludes (jsToLowerCase project.name) lowerPattern ||
    strIncludes (jsToLowerCase project.key) lowerPattern ||
      (descTruthy project.description &&
        strIncludes (jsToLowerCase (project.description.getD "")) lowerPattern))

/-- Transformation of a fetched project into the result record
(part_000 lines 131-137).  `project.description || null` collapses an
empty-string description to null. -/
def projectToResult (project : BitbucketProject) : ProjectResult :=
  { key := project.key
    name := project.name
    description :=
      match project.description with
      | some d => if d != "" then some d else none
      | none => none
    isPublic := project.isPublicFlag
    type := project.type }

/-- Embedding of bitbucketListProjectsTool (part_000 lines 56-164).
`compileRegex` stands for the external JavaScript RegExp engine:
`compileRegex p` is `some test` when `new RegExp(p, 'i')` compiles (and
`test` is its `test` method), and none when the constructor throws.  The
second component of the returned pair counts the network calls issued,
so that the claim that validation happens before any network call is
expressible. -/
def bitbucketListProjectsTool (compileRegex : String → Option (String → Bool))
    (pattern : Option String) (limit offset : Nat)
    (resp : APIResponse ProjectsPage) :
    List (ToolEvent ListProjectsResult) × Nat :=
  if offset % limit != 0 then
    ([ToolEvent.error
        s!"offset ({offset}) must be divisible by limit ({limit}) for pagination. Try offset values like 0, {limit}, {limit * 2}, etc."],
      0)
  else
    let patternFragment :=
      match pattern with
      | some p => if p != "" then s!" matching \"{p}\"" else ""
      | none => ""
    let progressEv : ToolEvent ListProjectsResult :=
      ToolEvent.progress [s!"Fetching projects{patternFragment}..."]
    match resp.ok, resp.data with
    | false, _ =>
        let st := resp.status
        let stx := if resp.statusText != "" then resp.statusText else "Unknown error"
        ([progressEv, ToolEvent.error s!"Failed to fetch projects: {st} {stx}"], 1)
    | true, none =>
        let st := resp.status
        let stx := if resp.statusText != "" then resp.statusText else "Unknown error"
        ([progressEv, ToolEvent.error s!"Failed to fetch projects: {st} {stx}"], 1)
    | true, some page =>
        let projects :=
          match pattern with
          | some p =>
              if p != "" then
                match compileRegex p with
                | some test => regexFilterProjects test page.values
                | none => substringFilterProjects (jsToLowerCase p) page.values
              else page.values
          | none => page.values
        let results := projects.map projectToResult
        let totalCount :=
          match page.size with
          | some n => if n != 0 then n else results.length
          | none => results.length
        ([progressEv, ToolEvent.done { projects := results, totalCount := totalCount }], 1)

/-! ## The read adapter (src/unnamed/part_001) -/

/-- Splitting a character sequence at every newline character; the
result always has one more block than there are newlines (splitting the
empty sequence gives one empty block). -/
def splitNewlineChars : List Char → List (List Char)
  | [] => [[]]
  | c :: rest =>
      if c = '\n' then [] :: splitNewlineChars rest
      else
        match splitNewlineChars rest with
        | [] => [[c]]
        | block :: blocks => (c :: block) :: blocks

/-- Embedding of `content.split('\n')`. -/
def jsSplitNewline (content : String) : List String :=
  (splitNewlineChars content.toList).map String.mk

/-- Embedding of `Array.prototype.slice(s, e)` with JavaScript index
normalization: a negative index counts from the end of the array, and
indices are clamped to `[0, length]`. -/
def jsSlice (l : List α) (s e : Int) : List α :=
  let n : Int := l.length
  let s1 : Int := if s < 0 then max (n + s) 0 else min s n
  let e1 : Int := if e < 0 then max (n + e) 0 else min e n
  (l.take e1.toNat).drop s1.toNat

/-- Embedding of `.map((line, idx) => `${startLine + idx}: ${line}`)`:
the element at offset idx is prefixed with the line number
`startLine + idx` followed by a colon and a space. -/
def numberLines (startLine : Int) : List String → List String
  | [] => []
  | line :: rest => (toString startLine ++ ": " ++ line) :: numberLines (startLine + 1) rest

/-- Embedding of the line-selection and numbering pipeline of
bitbucketReadTool (part_001 lines 85-103): split the content on
newlines, default the range to the whole file, override it from
`read_range` with `startLine = max(1, a)` and
`endLine = min(lines.length, b)`, slice `[startLine - 1, endLine)` and
number each selected line with its original 1-indexed position. -/
def bitbucketReadNumberedLines (content : String) (read_range : Option (Int × Int)) :
    List String :=
  let lines := jsSplitNewline content
  let startLine : Int :=
    match read_range with
    | some r => max 1 r.1
    | none => 1
  let endLine : Int :=
    match read_range with
    | some r => min (lines.length : Int) r.2
    | none => (lines.length : Int)
  numberLines startLine (jsSlice lines (startLine - 1) endLine)

/-- The single content string of the read result (the numbered lines
joined by newline, part_001 line 103). -/
def bitbucketReadContent (content : String) (read_range : Option (Int × Int)) : String :=
  String.intercalate "\n" (bitbucketReadNumberedLines content read_range)

/-! ## The glob adapter (src/unnamed/part_002) -/

/-- Kind of a browse entry (`type: 'FILE' | 'DIRECTORY'`). -/
inductive BrowseItemType where
  | FILE
  | DIRECTORY
  deriving DecidableEq, Repr

/-- A browse entry (`BitbucketFileItem`); the `toString` rendering of
the path is unused by the adapter and not modelled. -/
structure BrowseItem where
  components : List String
  type : BrowseItemType
  deriving DecidableEq, Repr

/-- The `children` section of a browse page
(`BitbucketBrowseResponse.children`); the fields the adapter never
reads (size, start, limit) are not modelled. -/
structure BrowseChildren where
  values : List BrowseItem
  isLastPage : Bool
  nextPageStart : Option Nat
  deriving DecidableEq, Repr

/-- A remote server for the browse endpoint: for a directory path and a
paging cursor it yields the children section of the page, or none when
the fetch fails (`!response.ok || !response.data`). -/
def BrowseServer : Type := String → Nat → Option BrowseChildren

/-- The body of the `for (const item of items)` loop of fetchDirectory
(part_002 lines 94-104), parametrized by the recursive call used for
DIRECTORY entries: FILE entries push their joined path onto the
accumulating file list, DIRECTORY entries are traversed recursively
before the loop continues with the remaining items.  A none result of
the recursive call signals exhausted fuel and is propagated. -/
def processItemsWith (recur : String → List String → Option (List String)) :
    List BrowseItem → List String → Option (List String)
  | [], acc => some acc
  | item :: rest, acc =>
      let itemPath := String.intercalate "/" item.components
      match item.type with
      | BrowseItemType.FILE => processItemsWith recur rest (acc ++ [itemPath])
      | BrowseItemType.DIRECTORY =>
          match recur itemPath acc with
          | none => none
          | some acc1 => processItemsWith recur rest acc1

/-- Embedding of the recursive fetchDirectory (part_002 lines 69-111).
The fuel argument bounds the number of page fetches so that the
function is total; none means the fuel ran out before the traversal
completed (the source has no such bound, so the claims about the
traversal are stated as the existence of sufficient fuel).  The paging
loop mirrors the source exactly: a failed fetch returns the accumulator
as collected so far (skipping the rest of this directory branch only);
after processing the items of a page the loop stops when isLastPage is
true, and otherwise refetches with the cursor set to nextPageStart when
that field is truthy (present and nonzero) and left unchanged when it
is not. -/
def fetchDirectory (server : BrowseServer) :
    Nat → String → Nat → List String → Option (List String)
  | 0, _, _, _ => none
  | fuel + 1, path, start, acc =>
      match server path start with
      | none => some acc
      | some page =>
          match processItemsWith (fun p a => fetchDirectory server fuel p 0 a)
              page.values acc with
          | none => none
          | some acc1 =>
              if page.isLastPage then some acc1
              else
                match page.nextPageStart with
                | some n =>
                    if n != 0 then fetchDirectory server fuel path n acc1
                    else fetchDirectory server fuel path start acc1
                | none => fetchDirectory server fuel path start acc1

/-- Embedding of fetchAllFiles (part_002 lines 63-115): the traversal
starts at the repository root with an empty accumulator. -/
def fetchAllFiles (server : BrowseServer) (fuel : Nat) : Option (List String) :=
  fetchDirectory server fuel "" 0 []

/-- Post-traversal pipeline of bitbucketGlobTool (part_002 lines
120-137): glob filtering, pagination slicing, mapping to file
identifiers.  `isMatch` stands for the external picomatch compilation of
the filePattern and `mkURI` for the external URI construction
(`toFilePathOrURI(toURIString(URI.from(...)))`), both out-of-scope
library collaborators.  The slice `matchedFiles.slice(offset, offset + limit)`
on natural offset and limit is drop-then-take; a falsy (zero) limit
selects `matchedFiles.slice(offset)` instead. -/
def bitbucketGlobPost (isMatch : String → Bool) (mkURI : String → String)
    (limit offset : Nat) (filePaths : List String) : List String :=
  let matchedFiles := filePaths.filter isMatch
  let paginatedFiles :=
    if limit != 0 then (matchedFiles.drop offset).take limit
    else matchedFiles.drop offset
  paginatedFiles.map mkURI

/-- Embedding of the event sequence of bitbucketGlobTool (part_002
lines 49-155) for a completed traversal: a progress event followed by a
single done event carrying the processed file list.  The value is none
when the given fuel does not complete the traversal. -/
def bitbucketGlobTool (server : BrowseServer) (isMatch : String → Bool)
    (mkURI : String → String) (project repository filePattern : String)
    (limit offset fuel : Nat) : Option (List (ToolEvent (List String))) :=
  match fetchAllFiles server fuel with
  | none => none
  | some filePaths =>
      some [ToolEvent.progress
          [s!"Finding files matching \"{filePattern}\" in {project}/{repository}..."],
        ToolEvent.done (bitbucketGlobPost isMatch mkURI limit offset filePaths)]

/-! ## Concrete fixtures used by scenario theorems, counterexamples and
witnesses -/

/-- A regex engine on which every pattern fails to compile (the
constructor always throws); used to exercise the fallback branch. -/
def noRegex : String → Option (String → Bool) := fun _ => none

/-- A browse server whose root lists a.ts, the directory sub, and b.js,
and where every fetch of the nested directory sub fails (the directory
is inaccessible). -/
def siblingServer : BrowseServer := fun path start =>
  if path = "" ∧ start = 0 then
    some { values :=
             [ { components := ["a.ts"], type := BrowseItemType.FILE },
               { components := ["sub"], type := BrowseItemType.DIRECTORY },
               { components := ["b.js"], type := BrowseItemType.FILE } ],
           isLastPage := true, nextPageStart := none }
  else none

/-- A browse server for an empty repository: the root page lists no
entries. -/
def emptyRepoServer : BrowseServer := fun path start =>
  if path = "" ∧ start = 0 then
    some { values := [], isLastPage := true, nextPageStart := none }
  else none

/-- A project fixture. -/
def projAlpha : BitbucketProject :=
  { key := "P1", id := 1, name := "Alpha", description := none,
    isPublicFlag := true, type := "NORMAL" }

/-- A project fixture whose name contains a parenthesis, so that the
substring fallback for the invalid regex pattern "(" retains it. -/
def projParen : BitbucketProject :=
  { key := "P2", id := 2, name := "x(y", description := some "second",
    isPublicFlag := false, type := "NORMAL" }

/-- A successful projects response whose page reports size 0 while
listing one project. -/
def sizeZeroResp : APIResponse ProjectsPage :=
  { ok := true, status := 200, statusText := "OK", text := none,
    data := some { values := [projAlpha], size := some 0 } }

/-- A successful projects response with two projects and a reported
size of 5. -/
def listProjectsOkResp : APIResponse ProjectsPage :=
  { ok := true, status := 200, statusText := "OK", text := none,
    data := some { values := [projAlpha, projParen], size := some 5 } }

/-- The code search response of the specification scenario: hits in
main.go, util.py and sub/dir.go. -/
def codeSearchScenarioResp : APIResponse CodeSearchData :=
  { ok := true, status := 200, statusText := "OK", text := none,
    data := some { code := some { count := 3, values :=
      [ { projectKey := "P", repositorySlug := "r", file := "main.go" },
        { projectKey := "P", repositorySlug := "r", file := "util.py" },
        { projectKey := "P", repositorySlug := "r", file := "sub/dir.go" } ] } } }

/-- The done result the code search adapter produces for the scenario
response with fileGlob given as the double-star go pattern. -/
def c7ScenarioResult : CodeSearchResult :=
  { files := [ { projectKey := "P", repositorySlug := "r", file := "sub/dir.go" } ],
    totalCount := 1 }

/-- A failed repository search response. -/
def repoSearchFailResp : APIResponse SearchRepositoriesData :=
  { ok := false, status := 500, statusText := "Internal Server Error",
    text := some "boom", data := none }

/-! ## Theorems -/

/-- C1: the claim describes the intended glob-to-regex translation
(double star crossing path separators) together with its sample
consequences, but the source chains
`.replace(/\*\*/g, '.*')` with `.replace(/\*/g, '[^/]*')`, and the
second pass rewrites the star of the `.*` produced by the first, so the
double star compiles to `.[^/]*` instead of `.*`.  Evaluating the
embedded translation: the pattern of the claim compiles to the regex
body `.[^/]*/[^/]*\.ts`, which rejects the path src/a/b.ts the claim
says it matches (it accepts only paths with exactly one separator, such
as a/b.ts), while the single-star examples behave as claimed.  This
contradicts the adjacent source comment stating that double star
matches anything. -/
theorem C1_glob_translation_evaluation :
    globRegexBody "**/*.ts" = ".[^/]*/[^/]*\\.ts".toList ∧
    globRegexTest "**/*.ts" "src/a/b.ts" = false ∧
    globRegexTest "**/*.ts" "a/b.ts" = true ∧
    globRegexTest "**/*.ts" "src/a/b.tsx" = false ∧
    globRegexTest "*.json" "package.json" = true ∧
    globRegexTest "*.json" "nested/package.json" = false := by
  decide

/-- C7: every done result of the code_search adapter reports a
totalCount equal to the length of its files array, for any combination
of the project, repository and fileGlob filters, regardless of the
server-reported count. -/
theorem C7_codeSearch_totalCount (query : String)
    (project repository fileGlob : Option String)
    (resp : APIResponse CodeSearchData) (r : CodeSearchResult)
    (h : ToolEvent.done r ∈ bitbucketCodeSearchTool query project repository fileGlob resp) :
    r.totalCount = r.files.length := by
  cases hok : resp.ok with
  | false => simp [bitbucketCodeSearchTool, hok] at h
  | true =>
    cases hdata : resp.data with
    | none => simp [bitbucketCodeSearchTool, hok, hdata] at h
    | some data =>
      cases hcode : data.code with
      | none =>
        simp [bitbucketCodeSearchTool, hok, hdata, hcode] at h
        simp [h]
      | some code =>
        simp [bitbucketCodeSearchTool, hok, hdata, hcode] at h
        simp [h]

/-- Witness for C7 at the specification scenario (query TODO, double
star go fileGlob, hits in main.go, util.py and sub/dir.go). -/
theorem C7_codeSearch_totalCount_witness :
    (ToolEvent.done c7ScenarioResult ∈
      bitbucketCodeSearchTool "TODO" none none (some "**/*.go") codeSearchScenarioResp) ∧
    c7ScenarioResult.totalCount = c7ScenarioResult.files.length :=
  have hmem : ToolEvent.done c7ScenarioResult ∈
      bitbucketCodeSearchTool "TODO" none none (some "**/*.go") codeSearchScenarioResp := by
    decide
  ⟨hmem, C7_codeSearch_totalCount "TODO" none none (some "**/*.go")
    codeSearchScenarioResp c7ScenarioResult hmem⟩

/-- C8: branch behavior of the search_repositories adapter: a non-ok
response yields one error event whose message carries the status,
status text and (truncated) response text; an ok response with missing
data yields an error event; an ok response whose data lacks the
repositories section yields a done event with an empty array and count
zero; otherwise the done event carries the server values and count
verbatim. -/
theorem C8_searchRepositories_branches (query : String)
    (resp : APIResponse SearchRepositoriesData) :
    (resp.ok = false →
      bitbucketSearchRepositoriesTool query resp =
        [ToolEvent.progress [s!"Searching for repositories matching \"{query}\"..."],
          ToolEvent.error
            ("Error searching Bitbucket repositories: Bitbucket repository search failed: "
              ++ toString resp.status ++ " " ++ resp.statusText ++ textFragment resp.text)]) ∧
    (resp.ok = true → resp.data = none →
      bitbucketSearchRepositoriesTool query resp =
        [ToolEvent.progress [s!"Searching for repositories matching \"{query}\"..."],
          ToolEvent.error
            "Error searching Bitbucket repositories: No data returned from Bitbucket repository search"]) ∧
    (∀ d, resp.ok = true → resp.data = some d → d.repositories = none →
      bitbucketSearchRepositoriesTool query resp =
        [ToolEvent.progress [s!"Searching for repositories matching \"{query}\"..."],
          ToolEvent.done { repositories := [], totalCount := 0 }]) ∧
    (∀ d sec, resp.ok = true → resp.data = some d → d.repositories = some sec →
      bitbucketSearchRepositoriesTool query resp =
        [ToolEvent.progress [s!"Searching for repositories matching \"{query}\"..."],
          ToolEvent.done { repositories := sec.values, totalCount := sec.count }]) := by
  refine ⟨fun hok => ?_, fun hok hdata => ?_, fun d hok hdata hrep => ?_,
    fun d sec hok hdata hrep => ?_⟩
  · simp [bitbucketSearchRepositoriesTool, hok, toString, String.append_assoc]
  · simp [bitbucketSearchRepositoriesTool, hok, hdata]
  · simp [bitbucketSearchRepositoriesTool, hok, hdata, hrep]
  · simp [bitbucketSearchRepositoriesTool, hok, hdata, hrep]

/-- Witness for C8 at a concrete failed response (status 500, body
boom). -/
theorem C8_searchRepositories_branches_witness :
    repoSearchFailResp.ok = false ∧
    bitbucketSearchRepositoriesTool "q" repoSearchFailResp =
      [ToolEvent.progress ["Searching for repositories matching \"q\"..."],
        ToolEvent.error
          "Error searching Bitbucket repositories: Bitbucket repository search failed: 500 Internal Server Error - boom"] :=
  ⟨rfl, by
    have h := (C8_searchRepositories_branches "q" repoSearchFailResp).1 rfl
    rw [h]
    decide⟩

/-- C5: with a positive limit and an offset that is not a multiple of
the limit, the list-projects adapter emits exactly one event, an error
whose message suggests the valid offsets 0, limit and twice the limit,
and issues no network call. -/
theorem C5_offset_validation (compileRegex : String → Option (String → Bool))
    (pattern : Option String) (limit offset : Nat)
    (resp : APIResponse ProjectsPage)
    (hlim : 0 < limit) (hmod : offset % limit ≠ 0) :
    bitbucketListProjectsTool compileRegex pattern limit offset resp =
      ([ToolEvent.error
          ("offset (" ++ toString offset ++ ") must be divisible by limit ("
            ++ toString limit ++ ") for pagination. Try offset values like 0, "
            ++ toString limit ++ ", " ++ toString (limit * 2) ++ ", etc.")], 0) := by
  have hcond : (offset % limit != 0) = true := by simpa using hmod
  simp [bitbucketListProjectsTool, hcond, toString, String.append_assoc]

/-- Witness for C5 at limit 2, offset 3. -/
theorem C5_offset_validation_witness :
    0 < 2 ∧ 3 % 2 ≠ 0 ∧
    bitbucketListProjectsTool noRegex none 2 3 listProjectsOkResp =
      ([ToolEvent.error
          "offset (3) must be divisible by limit (2) for pagination. Try offset values like 0, 2, 4, etc."],
        0) :=
  ⟨by decide, by decide, by
    have h := C5_offset_validation noRegex none 2 3 listProjectsOkResp
      (by decide) (by decide)
    rw [h]
    decide⟩

/-- C6 counterexample: the claim says totalCount equals the
server-reported size field whenever that field is present, but the
source computes `response.data.size || results.length`, and the
JavaScript or-operator treats a present size of 0 as falsy: against a
page reporting size 0 while listing one project, the adapter reports
totalCount 1, not the server-reported 0. -/
theorem C6_totalCount_counterexample :
    (bitbucketListProjectsTool noRegex none 30 0 sizeZeroResp).1 =
      [ToolEvent.progress ["Fetching projects..."],
        ToolEvent.done
          { projects := [{ key := "P1", name := "Alpha", description := none,
                           isPublic := true, type := "NORMAL" }],
            totalCount := 1 }] ∧
    sizeZeroResp.data = some { values := [projAlpha], size := some 0 } ∧
    (1 : Nat) ≠ 0 := by
  refine ⟨by decide, by decide, by decide⟩

/-- C6 amended: for every successful list-projects invocation whose
page carries a nonzero size field, totalCount equals that size (the
unfiltered page size, even when a pattern filter removed projects);
when the size field is absent or zero, totalCount equals the length of
the filtered, returned project list. -/
theorem C6_totalCount_amended (compileRegex : String → Option (String → Bool))
    (pattern : Option String) (limit offset : Nat)
    (resp : APIResponse ProjectsPage) (page : ProjectsPage)
    (r : ListProjectsResult)
    (hdata : resp.data = some page)
    (hdone : ToolEvent.done r ∈
      (bitbucketListProjectsTool compileRegex pattern limit offset resp).1) :
    (∀ n, page.size = some n → n ≠ 0 → r.totalCount = n) ∧
    (page.size = none ∨ page.size = some 0 → r.totalCount = r.projects.length) := by
  by_cases hcond : (offset % limit != 0) = true
  · simp [bitbucketListProjectsTool, hcond] at hdone
  · cases hok : resp.ok with
    | false =>
      simp [bitbucketListProjectsTool, hcond, hok] at hdone
    | true =>
      rw [bitbucketListProjectsTool.eq_def] at hdone
      simp only [hcond, hok, hdata, if_neg, Bool.false_eq_true, if_false] at hdone
      simp only [List.mem_cons, List.not_mem_nil, or_false, reduceCtorEq, false_or,
        ToolEvent.done.injEq] at hdone
      refine ⟨fun n hn hnz => ?_, fun hz => ?_⟩
      · subst hdone
        simp [hn, hnz]
      · subst hdone
        rcases hz with hz | hz <;> simp [hz]

/-- Witness for C6 amended at the size-5 fixture response. -/
theorem C6_totalCount_amended_witness :
    (listProjectsOkResp.data = some { values := [projAlpha, projParen], size := some 5 }) ∧
    (∀ n, (some 5 : Option Nat) = some n → n ≠ 0 →
      (5 : Nat) = n) := by
  constructor
  · decide
  · intro n hn hnz
    have h := C6_totalCount_amended noRegex none 30 0 listProjectsOkResp
      { values := [projAlpha, projParen], size := some 5 }
      { projects := [projectToResult projAlpha, projectToResult projParen], totalCount := 5 }
      (by decide) (by decide)
    have h5 := h.1 n hn hnz
    simpa using h5

/-- C10: when the pattern fails to compile as a regular expression, the
list-projects adapter does not raise and emits no error event for that
reason: filtering silently falls back to the case-insensitive substring
match over name, key and description, and the invocation completes with
a done event (given a successful fetch). -/
theorem C10_invalid_regex_fallback (compileRegex : String → Option (String → Bool))
    (p : String) (limit offset : Nat)
    (resp : APIResponse ProjectsPage) (page : ProjectsPage)
    (hp : p ≠ "") (hcomp : compileRegex p = none)
    (hmod : offset % limit = 0) (hok : resp.ok = true)
    (hdata : resp.data = some page) :
    (∃ msgs total,
      bitbucketListProjectsTool compileRegex (some p) limit offset resp =
        ([ToolEvent.progress msgs,
          ToolEvent.done
            { projects :=
                (substringFilterProjects (jsToLowerCase p) page.values).map projectToResult,
              totalCount := total }], 1)) ∧
    (∀ m, ToolEvent.error m ∉
      (bitbucketListProjectsTool compileRegex (some p) limit offset resp).1) := by
  have hcond : (offset % limit != 0) = false := by simpa using hmod
  have hpb : (p != "") = true := by simpa using hp
  rw [bitbucketListProjectsTool.eq_def]
  simp only [hcond, Bool.false_eq_true, if_false, hok, hdata, hpb, hcomp, if_true]
  constructor
  · exact ⟨_, _, rfl⟩
  · intro m
    simp

/-- Witness for C10 at the invalid pattern "(" against the two-project
fixture response: the fallback keeps exactly the project whose name
contains the parenthesis, and no error event is emitted. -/
theorem C10_invalid_regex_fallback_witness :
    ("(" : String) ≠ "" ∧ noRegex "(" = none ∧ 0 % 30 = 0 ∧
    listProjectsOkResp.ok = true ∧
    (∃ msgs total,
      bitbucketListProjectsTool noRegex (some "(") 30 0 listProjectsOkResp =
        ([ToolEvent.progress msgs,
          ToolEvent.done
            { projects :=
                (substringFilterProjects (jsToLowerCase "(")
                  [projAlpha, projParen]).map projectToResult,
              totalCount := total }], 1)) := by
  refine ⟨by decide, rfl, by decide, rfl, ?_⟩
  exact (C10_invalid_regex_fallback noRegex "(" 30 0 listProjectsOkResp
    { values := [projAlpha, projParen], size := some 5 }
    (by decide) rfl (by decide) rfl (by decide)).1

/-- C4: pagination coherence of the glob post-processing: (i) the page
at offset k with positive limit n equals the slice [k, k+n) of the page
at offset 0 with limit k+n; (ii) a falsy (zero) limit selects the slice
[offset, end); (iii) the whole tool is a pure function of its inputs,
so two invocations with identical arguments against the same server
yield identical ordered output. -/
theorem C4_glob_pagination (isMatch : String → Bool) (mkURI : String → String)
    (filePaths : List String) (k n : Nat)
    (server : BrowseServer) (project repository filePattern : String)
    (limit offset fuel : Nat)
    (hn : 0 < n) :
    (bitbucketGlobPost isMatch mkURI n k filePaths =
      ((bitbucketGlobPost isMatch mkURI (k + n) 0 filePaths).drop k).take n) ∧
    (∀ off, bitbucketGlobPost isMatch mkURI 0 off filePaths =
      ((filePaths.filter isMatch).drop off).map mkURI) ∧
    (bitbucketGlobTool server isMatch mkURI project repository filePattern
        limit offset fuel =
      bitbucketGlobTool server isMatch mkURI project repository filePattern
        limit offset fuel) := by
  have hnb : (n != 0) = true := by simp; omega
  have hknb : (k + n != 0) = true := by simp; omega
  refine ⟨?_, fun off => ?_, rfl⟩
  · simp only [bitbucketGlobPost, hnb, hknb, if_true, List.drop_zero]
    rw [← List.map_drop, ← List.map_take, ← List.take_drop, List.take_take]
    simp
  · simp [bitbucketGlobPost]

/-- Witness for C4 at a three-element file list with k = 1, n = 1. -/
theorem C4_glob_pagination_witness :
    0 < 1 ∧
    bitbucketGlobPost (fun _ => true) (fun s => s) 1 1 ["a", "b", "c"] =
      ((bitbucketGlobPost (fun _ => true) (fun s => s) 2 0 ["a", "b", "c"]).drop 1).take 1 :=
  ⟨by decide,
    (C4_glob_pagination (fun _ => true) (fun s => s) ["a", "b", "c"] 1 1
      (fun _ _ => none) "p" "r" "pat" 0 0 0 (by decide)).1⟩

/-- Length of a numbered block equals the length of its source block. -/
theorem numberLines_length (k : Int) (ls : List String) :
    (numberLines k ls).length = ls.length := by
  induction ls generalizing k with
  | nil => rfl
  | cons l rest ih => simp [numberLines, ih]

/-- The entry at offset i of a numbered block is the source entry at
offset i prefixed with the number k + i. -/
theorem numberLines_getElem? (k : Int) (ls : List String) (i : Nat) :
    (numberLines k ls)[i]? =
      (ls[i]?).map (fun line => toString (k + (i : Int)) ++ ": " ++ line) := by
  induction ls generalizing k i with
  | nil => simp [numberLines]
  | cons l rest ih =>
    cases i with
    | zero => simp [numberLines]
    | succ j =>
      simp only [numberLines, List.getElem?_cons_succ, ih (k + 1) j]
      have : k + 1 + (j : Int) = k + ((j : Nat) + 1 : Int) := by omega
      rw [this]
      simp

/-- C9 counterexample: the claim says the number of output lines equals
end - start + 1 under clamping for every read_range; for the reversed
range [5, 3] on a five-line file the effective start is 5 and the
effective end is 3, the selection is empty (0 output lines), while
end - start + 1 is -1. -/
theorem C9_read_range_counterexample :
    bitbucketReadNumberedLines "a\nb\nc\nd\ne" (some (5, 3)) = [] ∧
    min (((jsSplitNewline "a\nb\nc\nd\ne").length : Int)) 3 - max 1 5 + 1 = -1 ∧
    ((0 : Int) ≠ -1) := by
  refine ⟨by decide, by decide, by decide⟩

/-- C9 amended: for read_range = [a, b] with b nonnegative (a negative
b invokes the from-the-end slice semantics of JavaScript and is outside
the claim), the effective start is max(1, a), the effective end is
min(N, b), the number of output lines is max(0, end - start + 1) (the
claimed end - start + 1, clamped to zero when the range is empty), and
output line i is exactly the original line at 1-indexed position
start + i prefixed with that position and ": ".  Without read_range the
entire file is numbered starting at 1. -/
theorem C9_read_range_amended (content : String) (a b : Int) (hb : 0 ≤ b) :
    ((bitbucketReadNumberedLines content (some (a, b))).length =
      (min ((jsSplitNewline content).length : Int) b - max 1 a + 1).toNat) ∧
    (∀ i : Nat, i < (bitbucketReadNumberedLines content (some (a, b))).length →
      (bitbucketReadNumberedLines content (some (a, b)))[i]? =
        some (toString (max 1 a + (i : Int)) ++ ": " ++
          (jsSplitNewline content).getD ((max 1 a - 1).toNat + i) "")) ∧
    (bitbucketReadNumberedLines content none =
        numberLines 1 (jsSplitNewline content) ∧
      (bitbucketReadNumberedLines content none).length =
        (jsSplitNewline content).length) := by
  have hs : ¬ (max 1 a - 1 < (0 : Int)) := by omega
  have hN : (0 : Int) ≤ ((jsSplitNewline content).length : Int) := by positivity
  have he : ¬ (min ((jsSplitNewline content).length : Int) b < 0) := by omega
  have hslice : jsSlice (jsSplitNewline content) (max 1 a - 1)
        (min ((jsSplitNewline content).length : Int) b) =
      ((jsSplitNewline content).take
          (min ((jsSplitNewline content).length : Int) b).toNat).drop
        (min (max 1 a - 1) ((jsSplitNewline content).length : Int)).toNat := by
    simp only [jsSlice, hs, he, if_false]
    rw [min_eq_left (min_le_left ((jsSplitNewline content).length : Int) b)]
  refine ⟨?_, fun i hi => ?_, ?_, ?_⟩
  · rw [bitbucketReadNumberedLines]
    simp only [hslice, numberLines_length, List.length_drop, List.length_take]
    omega
  · rw [bitbucketReadNumberedLines] at hi ⊢
    simp only [hslice, numberLines_getElem?] at hi ⊢
    simp only [numberLines_length, List.length_drop, List.length_take] at hi
    rw [List.getElem?_drop, List.getElem?_take]
    have hlt : (min (max 1 a - 1) ((jsSplitNewline content).length : Int)).toNat + i <
        (min ((jsSplitNewline content).length : Int) b).toNat := by omega
    rw [if_pos hlt]
    have hidx : (min (max 1 a - 1) ((jsSplitNewline content).length : Int)).toNat + i =
        (max 1 a - 1).toNat + i := by omega
    have hinb : (max 1 a - 1).toNat + i < (jsSplitNewline content).length := by omega
    rw [hidx, List.getElem?_eq_getElem hinb]
    have hgd : (jsSplitNewline content).getD ((max 1 a - 1).toNat + i) "" =
        (jsSplitNewline content)[(max 1 a - 1).toNat + i] := by
      rw [List.getD_eq_getElem?_getD, List.getElem?_eq_getElem hinb]
      rfl
    rw [hgd]
    rfl
  · rw [bitbucketReadNumberedLines]
    simp only [jsSlice]
    have h0 : ¬ ((1 : Int) - 1 < 0) := by omega
    have h1 : ¬ (((jsSplitNewline content).length : Int) < 0) := by omega
    simp only [h0, h1, if_false]
    simp
  · rw [bitbucketReadNumberedLines]
    simp only [jsSlice]
    have h0 : ¬ ((1 : Int) - 1 < 0) := by omega
    have h1 : ¬ (((jsSplitNewline content).length : Int) < 0) := by omega
    simp only [h0, h1, if_false]
    simp [numberLines_length]

/-- Witness for C9 amended at content with three lines and range
[2, 9]. -/
theorem C9_read_range_amended_witness :
    (0 : Int) ≤ 9 ∧
    (bitbucketReadNumberedLines "a\nb\nc" (some (2, 9))).length =
      (min (((jsSplitNewline "a\nb\nc").length : Int)) 9 - max 1 2 + 1).toNat :=
  ⟨by decide, (C9_read_range_amended "a\nb\nc" 2 9 (by decide)).1⟩

/-- C3: a failed directory page fetch aborts only that branch: no error
event is ever emitted by a completed glob invocation (first conjunct,
for every server); in the concrete sibling scenario the inaccessible
nested directory sub is skipped while the sibling files a.ts and b.js
are still returned in the single done result; an empty repository and a
pattern with zero matches both yield a done event with an empty list,
not an error. -/
theorem C3_traversal_failure_isolation
    (server : BrowseServer) (isMatch : String → Bool) (mkURI : String → String)
    (project repository filePattern : String) (limit offset fuel : Nat)
    (evs : List (ToolEvent (List String)))
    (hrun : bitbucketGlobTool server isMatch mkURI project repository filePattern
      limit offset fuel = some evs) :
    (∀ m, ToolEvent.error m ∉ evs) ∧
    (fetchAllFiles siblingServer 3 = some ["a.ts", "b.js"]) ∧
    (bitbucketGlobTool siblingServer (fun _ => true) (fun s => s) "p" "r" "**" 100 0 3 =
      some [ToolEvent.progress ["Finding files matching \"**\" in p/r..."],
        ToolEvent.done ["a.ts", "b.js"]]) ∧
    (bitbucketGlobTool emptyRepoServer (fun _ => true) (fun s => s) "p" "r" "**" 100 0 2 =
      some [ToolEvent.progress ["Finding files matching \"**\" in p/r..."],
        ToolEvent.done []]) ∧
    (bitbucketGlobTool siblingServer (fun _ => false) (fun s => s) "p" "r" "nomatch" 100 0 3 =
      some [ToolEvent.progress ["Finding files matching \"nomatch\" in p/r..."],
        ToolEvent.done []]) := by
  refine ⟨?_, by decide, by decide, by decide, by decide⟩
  intro m
  rw [bitbucketGlobTool] at hrun
  cases hfa : fetchAllFiles server fuel with
  | none => rw [hfa] at hrun; cases hrun
  | some fps =>
    rw [hfa] at hrun
    have hevs : evs = [ToolEvent.progress
        [s!"Finding files matching \"{filePattern}\" in {project}/{repository}..."],
      ToolEvent.done (bitbucketGlobPost isMatch mkURI limit offset fps)] := by
      cases hrun
      rfl
    rw [hevs]
    simp

/-- Witness for C3 at the empty-repository server. -/
theorem C3_traversal_failure_isolation_witness :
    (bitbucketGlobTool emptyRepoServer (fun _ => true) (fun s => s) "p" "r" "**" 100 0 2 =
      some [ToolEvent.progress ["Finding files matching \"**\" in p/r..."],
        ToolEvent.done []]) ∧
    ToolEvent.error "boom" ∉
      [ToolEvent.progress ["Finding files matching \"**\" in p/r..."],
        (ToolEvent.done [] : ToolEvent (List String))] :=
  have hrun : bitbucketGlobTool emptyRepoServer (fun _ => true) (fun s => s)
      "p" "r" "**" 100 0 2 =
      some [ToolEvent.progress ["Finding files matching \"**\" in p/r..."],
        ToolEvent.done []] := by decide
  ⟨hrun, (C3_traversal_failure_isolation emptyRepoServer (fun _ => true) (fun s => s)
    "p" "r" "**" 100 0 2 _ hrun).1 "boom"⟩

/-- Monotonicity of the item loop in its recursive call: a completed
run stays completed, with the same result, when the recursive call is
replaced by one that completes at least as often. -/
theorem processItemsWith_mono (recur recur2 : String → List String → Option (List String))
    (hmono : ∀ p a r, recur p a = some r → recur2 p a = some r) :
    ∀ items acc r, processItemsWith recur items acc = some r →
      processItemsWith recur2 items acc = some r := by
  intro items
  induction items with
  | nil => intro acc r h; simpa using h
  | cons item rest ih =>
    intro acc r h
    simp only [processItemsWith] at h ⊢
    cases htype : item.type with
    | FILE =>
      rw [htype] at h
      exact ih _ _ h
    | DIRECTORY =>
      rw [htype] at h
      cases hrec : recur (String.intercalate "/" item.components) acc with
      | none => rw [hrec] at h; cases h
      | some acc1 =>
        rw [hrec] at h
        rw [hmono _ _ _ hrec]
        exact ih _ _ h

/-- Fuel monotonicity of the traversal: a traversal that completes with
some fuel completes with the same result on any larger fuel. -/
theorem fetchDirectory_mono (server : BrowseServer) :
    ∀ fuel fuel2, fuel ≤ fuel2 →
      ∀ path start acc r, fetchDirectory server fuel path start acc = some r →
        fetchDirectory server fuel2 path start acc = some r := by
  intro fuel
  induction fuel with
  | zero =>
    intro fuel2 hle path start acc r hr
    simp [fetchDirectory] at hr
  | succ fuel ih =>
    intro fuel2 hle path start acc r hr
    obtain ⟨fuel3, rfl⟩ : ∃ f, fuel2 = f + 1 := ⟨fuel2 - 1, by omega⟩
    have hle3 : fuel ≤ fuel3 := by omega
    simp only [fetchDirectory] at hr ⊢
    cases hsv : server path start with
    | none => rw [hsv] at hr; exact hr
    | some page =>
      rw [hsv] at hr
      dsimp only at hr ⊢
      cases hpi : processItemsWith (fun p a => fetchDirectory server fuel p 0 a)
          page.values acc with
      | none => rw [hpi] at hr; exact Option.noConfusion hr
      | some acc1 =>
        rw [hpi] at hr
        rw [processItemsWith_mono _ _
          (fun p a r2 h => ih fuel3 hle3 p 0 a r2 h) _ _ _ hpi]
        dsimp only at hr ⊢
        cases hlast : page.isLastPage with
        | true =>
          rw [hlast] at hr
          rw [if_pos rfl] at hr ⊢
          exact hr
        | false =>
          rw [hlast] at hr
          rw [if_neg (by simp)] at hr ⊢
          cases hnext : page.nextPageStart with
          | none => rw [hnext] at hr; exact ih fuel3 hle3 _ _ _ _ hr
          | some n =>
            rw [hnext] at hr
            dsimp only at hr ⊢
            by_cases hn : (n != 0) = true
            · rw [if_pos hn] at hr ⊢
              exact ih fuel3 hle3 _ _ _ _ hr
            · rw [if_neg hn] at hr ⊢
              exact ih fuel3 hle3 _ _ _ _ hr

/-- Termination of the item loop: when the traversal of every directory
item in the list terminates from any accumulator, the whole loop
terminates with a common fuel. -/
theorem processItems_terminates (server : BrowseServer) :
    ∀ items : List BrowseItem,
      (∀ item ∈ items, item.type = BrowseItemType.DIRECTORY →
        ∀ acc, ∃ fuel r, fetchDirectory server fuel
          (String.intercalate "/" item.components) 0 acc = some r) →
      ∀ acc, ∃ fuel r,
        processItemsWith (fun p a => fetchDirectory server fuel p 0 a) items acc = some r := by
  intro items
  induction items with
  | nil => intro _ acc; exact ⟨0, acc, rfl⟩
  | cons item rest ih =>
    intro hdir acc
    have hrest_dir := fun it hit hty => hdir it (List.mem_cons_of_mem item hit) hty
    cases htype : item.type with
    | FILE =>
      obtain ⟨fuel, r, hr⟩ := ih hrest_dir (acc ++ [String.intercalate "/" item.components])
      refine ⟨fuel, r, ?_⟩
      simp only [processItemsWith, htype]
      exact hr
    | DIRECTORY =>
      obtain ⟨fuel1, acc1, h1⟩ := hdir item (List.mem_cons_self item rest) htype acc
      obtain ⟨fuel2, r, h2⟩ := ih hrest_dir acc1
      refine ⟨max fuel1 fuel2, r, ?_⟩
      simp only [processItemsWith, htype]
      rw [fetchDirectory_mono server fuel1 (max fuel1 fuel2) (le_max_left _ _) _ _ _ _ h1]
      exact processItemsWith_mono _ _
        (fun p a r2 h => fetchDirectory_mono server fuel2 _ (le_max_right _ _) p 0 a r2 h)
        _ _ _ h2

/-- Termination of the per-directory paging loop: with strictly
advancing cursors bounded by B and terminating item loops, the while
loop completes from any cursor. -/
theorem fetchDirectory_page_chain (server : BrowseServer) (B : Nat)
    (hadv : ∀ p c pg, server p c = some pg → pg.isLastPage = false →
      ∃ n, pg.nextPageStart = some n ∧ c < n)
    (hbound : ∀ p c pg, server p c = some pg → c ≤ B)
    (path : String)
    (hitems : ∀ c pg, server path c = some pg → ∀ acc, ∃ fuel r,
      processItemsWith (fun p a => fetchDirectory server fuel p 0 a) pg.values acc = some r) :
    ∀ j start, B + 1 ≤ start + j →
      ∀ acc, ∃ fuel r, fetchDirectory server fuel path start acc = some r := by
  intro j
  induction j with
  | zero =>
    intro start hj acc
    cases hsv : server path start with
    | none => exact ⟨1, acc, by simp [fetchDirectory, hsv]⟩
    | some pg => exact absurd (hbound path start pg hsv) (by omega)
  | succ j ih =>
    intro start hj acc
    cases hsv : server path start with
    | none => exact ⟨1, acc, by simp [fetchDirectory, hsv]⟩
    | some pg =>
      obtain ⟨fuelI, acc1, hI⟩ := hitems start pg hsv acc
      cases hlast : pg.isLastPage with
      | true =>
        refine ⟨fuelI + 1, acc1, ?_⟩
        simp only [fetchDirectory, hsv, hI, hlast, if_true]
      | false =>
        obtain ⟨n, hnext, hlt⟩ := hadv path start pg hsv hlast
        obtain ⟨fuelN, r, hN⟩ := ih n (by omega) acc1
        refine ⟨max fuelI fuelN + 1, r, ?_⟩
        have hIm : processItemsWith
            (fun p a => fetchDirectory server (max fuelI fuelN) p 0 a) pg.values acc =
            some acc1 :=
          processItemsWith_mono _ _
            (fun p a r2 h => fetchDirectory_mono server fuelI _ (le_max_left _ _) p 0 a r2 h)
            _ _ _ hI
        have hNm : fetchDirectory server (max fuelI fuelN) path n acc1 = some r :=
          fetchDirectory_mono server fuelN _ (le_max_right _ _) _ _ _ _ hN
        have hn0 : (n != 0) = true := by simp; omega
        simp only [fetchDirectory, hsv, hIm, hlast, hnext, hn0, Bool.false_eq_true,
          if_false, if_true]
        exact hNm

/-- Termination of the whole traversal by induction on the remaining
depth budget: directories deeper than D are never served, and every
served directory item is strictly deeper than its parent. -/
theorem fetchDirectory_terminates (server : BrowseServer) (B D : Nat)
    (hadv : ∀ p c pg, server p c = some pg → pg.isLastPage = false →
      ∃ n, pg.nextPageStart = some n ∧ c < n)
    (hbound : ∀ p c pg, server p c = some pg → c ≤ B)
    (hdepth : ∀ p c pg, server p c = some pg → p.length ≤ D)
    (hchild : ∀ p c pg, server p c = some pg → ∀ item ∈ pg.values,
      item.type = BrowseItemType.DIRECTORY →
      p.length < (String.intercalate "/" item.components).length) :
    ∀ k path, D + 1 ≤ path.length + k →
      ∀ start acc, ∃ fuel r, fetchDirectory server fuel path start acc = some r := by
  intro k
  induction k with
  | zero =>
    intro path hk start acc
    cases hsv : server path start with
    | none => exact ⟨1, acc, by simp [fetchDirectory, hsv]⟩
    | some pg => exact absurd (hdepth path start pg hsv) (by omega)
  | succ k ih =>
    intro path hk start acc
    have hitems : ∀ c pg, server path c = some pg → ∀ acc2, ∃ fuel r,
        processItemsWith (fun p a => fetchDirectory server fuel p 0 a) pg.values acc2 =
          some r := by
      intro c pg hsv acc2
      refine processItems_terminates server pg.values ?_ acc2
      intro item hit hty acc3
      have hlen := hchild path c pg hsv item hit hty
      exact ih (String.intercalate "/" item.components) (by omega) 0 acc3
    exact fetchDirectory_page_chain server B hadv hbound path hitems (B + 1) start
      (by omega) acc

/-- C2: against a finite, acyclic remote tree (cursors of successful
pages bounded by B and strictly advanced by nextPageStart on every
non-last page; served paths no longer than D, with every served
directory entry strictly longer than its parent), the recursive
traversal of the glob adapter terminates: some fuel completes it, every
larger fuel completes it with the same finite flat file list. -/
theorem C2_glob_traversal_terminates (server : BrowseServer) (B D : Nat)
    (hadv : ∀ p c pg, server p c = some pg → pg.isLastPage = false →
      ∃ n, pg.nextPageStart = some n ∧ c < n)
    (hbound : ∀ p c pg, server p c = some pg → c ≤ B)
    (hdepth : ∀ p c pg, server p c = some pg → p.length ≤ D)
    (hchild : ∀ p c pg, server p c = some pg → ∀ item ∈ pg.values,
      item.type = BrowseItemType.DIRECTORY →
      p.length < (String.intercalate "/" item.components).length) :
    ∃ fuel files, ∀ fuel2, fuel ≤ fuel2 → fetchAllFiles server fuel2 = some files := by
  obtain ⟨fuel, files, h⟩ := fetchDirectory_terminates server B D hadv hbound hdepth hchild
    (D + 1) "" (by simp) 0 []
  exact ⟨fuel, files, fun fuel2 h2 =>
    fetchDirectory_mono server fuel fuel2 h2 "" 0 [] files h⟩

/-- Witness for C2 at the server on which every fetch fails (a finite
tree trivially satisfying all four side conditions with bounds 0). -/
theorem C2_glob_traversal_terminates_witness :
    ∃ fuel files, ∀ fuel2, fuel ≤ fuel2 →
      fetchAllFiles (fun _ _ => none) fuel2 = some files :=
  C2_glob_traversal_terminates (fun _ _ => none) 0 0
    (fun _ _ _ h => Option.noConfusion h)
    (fun _ _ _ h => Option.noConfusion h)
    (fun _ _ _ h => Option.noConfusion h)
    (fun _ _ _ h => Option.noConfusion h)

end BitbucketTools
